import Mathlib

/-!
Verification of the Diamond collector plugins (IP, UDP, KSM, KVM, memcached,
Mesos cgroup, uptime) against their natural-language specification.  Each
collector's `collect` routine is embedded shallowly: file and socket contents
are passed in as explicit data, machine integers are `Int`/`Rat`, uncaught
Python exceptions become `Except` errors, and the host framework's publish
calls become elements of a result list.
-/

namespace Diamond

/-- Kind of a publish call made by a collector: `publish_gauge`,
`publish_counter`, or the plain `publish`. -/
inductive PKind where
  | gauge
  | counter
  | plain
  deriving DecidableEq, Repr

/-- Split a character list on a separator character, keeping empty pieces:
the semantics of Python `str.split(sep)` for a one-character separator. -/
def splitOnChar (sep : Char) : List Char → List (List Char)
  | [] => [[]]
  | c :: rest =>
      if c = sep then [] :: splitOnChar sep rest
      else
        match splitOnChar sep rest with
        | [] => [[c]]
        | g :: gs => (c :: g) :: gs

/-- Whitespace-token accumulator behind `pysplit`. -/
def wtokens (cur : List Char) : List Char → List (List Char)
  | [] => if cur = [] then [] else [cur.reverse]
  | c :: rest =>
      if c.isWhitespace then
        if cur = [] then wtokens [] rest else cur.reverse :: wtokens [] rest
      else wtokens (c :: cur) rest

/-- Python `str.split()` with no separator: split on runs of whitespace,
dropping empty pieces. -/
def pysplit (s : String) : List String :=
  (wtokens [] s.data).map (fun l => (⟨l⟩ : String))

/-- Line accumulator behind `pysplitlines`: terminators `\r\n`, `\n`, `\r`;
no trailing empty line. -/
def plines (cur : List Char) : List Char → List (List Char)
  | [] => if cur = [] then [] else [cur.reverse]
  | '\r' :: '\n' :: rest => cur.reverse :: plines [] rest
  | '\r' :: rest => cur.reverse :: plines [] rest
  | '\n' :: rest => cur.reverse :: plines [] rest
  | c :: rest => plines (c :: cur) rest

/-- Python `str.splitlines()`. -/
def pysplitlines (s : String) : List String :=
  (plines [] s.data).map (fun l => (⟨l⟩ : String))

/-- Python `s.startswith(pre)`. -/
def pystartswith (s pre : String) : Bool :=
  pre.data.isPrefixOf s.data

/-- Python `s.endswith(suf)`. -/
def pyendswith (s suf : String) : Bool :=
  suf.data.isSuffixOf s.data

/-- Python `str.strip()`: drop surrounding whitespace. -/
def pystrip (s : String) : List Char :=
  ((s.data.dropWhile (fun c => c.isWhitespace)).reverse.dropWhile
    (fun c => c.isWhitespace)).reverse

/-- Numeric value of a list of decimal digit characters. -/
def digitsToNat (cs : List Char) : Nat :=
  cs.foldl (fun acc c => acc * 10 + (c.toNat - 48)) 0

/-- Python `long(s)` / `int(s)`: strips surrounding whitespace, optional
sign, then decimal digits only; anything else raises, modelled as `none`. -/
def pyInt? (s : String) : Option Int :=
  let core : List Char → Option Int := fun ds =>
    if ds ≠ [] ∧ ds.all (fun c => c.isDigit) then some (digitsToNat ds) else none
  match pystrip s with
  | '-' :: rest => (core rest).map (fun n => -n)
  | '+' :: rest => core rest
  | cs => core cs

/-- Python `float(s)` for the plain decimal forms the collectors meet:
optional sign, digits with an optional single decimal point (at least one
digit overall), exact decimal value as a rational.  Other forms raise
`ValueError`, modelled as `none`. -/
def pyFloat? (s : String) : Option Rat :=
  let core : List Char → Option Rat := fun ds =>
    match splitOnChar '.' ds with
    | [w] =>
        if w ≠ [] ∧ w.all (fun c => c.isDigit) then
          some (mkRat (digitsToNat w) 1)
        else none
    | [w, f] =>
        if (w ≠ [] ∨ f ≠ []) ∧ w.all (fun c => c.isDigit) ∧ f.all (fun c => c.isDigit)
        then some (mkRat (digitsToNat w * 10 ^ f.length + digitsToNat f) (10 ^ f.length))
        else none
    | _ => none
  match pystrip s with
  | '-' :: rest => (core rest).map (fun q => -q)
  | '+' :: rest => core rest
  | cs => core cs

/-- Python `dict` assignment `d[k] = v` on an association list: overwrite in
place if the key exists, else append (insertion order, as the collectors'
small dicts are iterated). -/
def dinsert {α : Type} (d : List (String × α)) (k : String) (v : α) :
    List (String × α) :=
  match d with
  | [] => [(k, v)]
  | (k', v') :: rest =>
      if k' = k then (k', v) :: rest else (k', v') :: dinsert rest k v

/-- Python `d[k]` / `k in d` lookup on an association list. -/
def dget? {α : Type} (d : List (String × α)) (k : String) : Option α :=
  match d with
  | [] => none
  | (k', v) :: rest => if k' = k then some v else dget? rest k

/-! ## IPCollector (src/collectors/ip/ip.py) -/

/-- The `IPCollector.GAUGES` list. -/
def ipGAUGES : List String := ["Forwarding", "DefaultTTL"]

/-- A publish call of the IP collector: `publish_gauge(name, value, 0)` or
`publish_counter(name, value, 0)`; the third field is the precision. -/
structure IpPub where
  name : String
  value : Int
  kind : PKind
  precision : Nat
  deriving DecidableEq, Repr

/-- The header-seek loop of `IPCollector.collect`: scan lines for the first
one starting with the given prefix ("Ip"), return it as header together with
the immediately following line as data (`""` at EOF). -/
def seekHeader (pre : String) : List String → String × String
  | [] => ("", "")
  | l :: rest =>
      if pystartswith l pre then
        (l, match rest with | [] => "" | d :: _ => d)
      else seekHeader pre rest

/-- The metrics-dict building loop `for i in xrange(1, len(header)):
metrics[header[i]] = data[i]`; an out-of-range `data[i]` is an uncaught
`IndexError`. -/
def zipHeaderData (metrics : List (String × String)) (header data : List String)
    (i : Nat) (fuel : Nat) : Except String (List (String × String)) :=
  match fuel with
  | 0 => .ok metrics
  | fuel + 1 =>
      if h : i < header.length then
        match data.get? i with
        | none => .error "IndexError: list index out of range"
        | some v => zipHeaderData (dinsert metrics (header.get ⟨i, h⟩) v) header data (i + 1) fuel
      else .ok metrics

/-- The publish loop shared by `IPCollector.collect` (lines 141–152): filter
by the allow-list, parse with `long`, publish as gauge when the name is in
`GAUGES`, else as counter. -/
def ipPublishLoop (metrics : List (String × String)) (allowed : List String) :
    Except String (List IpPub) :=
  match metrics with
  | [] => .ok []
  | (name, raw) :: rest =>
      if allowed.length > 0 ∧ name ∉ allowed then
        ipPublishLoop rest allowed
      else
        match pyInt? raw with
        | none => .error "ValueError: invalid literal for long"
        | some value =>
            (ipPublishLoop rest allowed).map (fun pubs =>
              (⟨name, value,
                if name ∈ ipGAUGES then PKind.gauge else PKind.counter,
                0⟩ : IpPub) :: pubs)

/-- The file-scanning half of `IPCollector.collect`/`UDPCollector.collect`:
an unreadable or header-less file contributes an empty metrics dict (with a
logged error), otherwise header token `i` is mapped to data token `i`. -/
def parseProcMetrics (pre : String) (access : Bool) (lines : List String) :
    Except String (List (String × String)) :=
  if ¬ access then .ok []
  else
    let hd := seekHeader pre lines
    if hd.1 = "" ∨ hd.2 = "" then .ok []
    else zipHeaderData [] (pysplit hd.1) (pysplit hd.2) 1 (pysplit hd.1).length

/-- Embedding of `IPCollector.collect` for its single `/proc/net/snmp` file, the file
given as its list of lines (`readline` results, with trailing newlines).
`access` models `os.access(filepath, os.R_OK)`.  The returned list holds the
publish calls in order; `Except.error` is an uncaught exception. -/
def ipCollect (access : Bool) (lines : List String) (allowed : List String) :
    Except String (List IpPub) :=
  match parseProcMetrics "Ip" access lines with
  | .error e => .error e
  | .ok metrics => ipPublishLoop metrics allowed

/-! ## The host framework's derivative (diamond/collector.py, not in src/) -/

/-- Per-collector counter state: metric name to previously observed raw
value. -/
def CounterState : Type := List (String × Rat)

/-- Modelled from the spec: `diamond.collector.Collector.derivative(name,
raw_value, modulus?)` lives in the host framework (`diamond/collector.py`),
which is not part of the given sources.  Per the spec, with previous raw
observation `v0` and new raw value `v1` the delta is `v1 - v0` when
`v1 ≥ v0` and `(modulus - v0) + v1` on wraparound (`v1 < v0`); the raw value
is remembered for the next cycle.  First-observation behaviour is left open
by the spec; a delta of 0 is used here, and no theorem depends on it. -/
def derivative (st : CounterState) (name : String) (new : Rat) (modulus : Rat) :
    Rat × CounterState :=
  match dget? st name with
  | some old =>
      (if new < old then (modulus - old) + new else new - old,
       dinsert st name new)
  | none => (0, dinsert st name new)

/-! ## UDPCollector (src/collectors/udp/udp.py) -/

/-- A plain `publish(name, value, 0)` call of the UDP collector. -/
structure UdpPub where
  name : String
  value : Rat
  precision : Nat
  deriving DecidableEq, Repr

/-- The publish loop of `UDPCollector.collect` (lines 127–136): filter by
the allow-list, parse with `long`, replace by `derivative` and publish.
`m` is the host framework's default modulus (UDP passes none explicitly). -/
def udpPublishLoop (metrics : List (String × String)) (allowed : List String)
    (st : CounterState) (m : Rat) : Except String (List UdpPub × CounterState) :=
  match metrics with
  | [] => .ok ([], st)
  | (name, raw) :: rest =>
      if allowed.length > 0 ∧ name ∉ allowed then
        udpPublishLoop rest allowed st m
      else
        match pyInt? raw with
        | none => .error "ValueError: invalid literal for long"
        | some value =>
            let d := derivative st name (value : Rat) m
            (udpPublishLoop rest allowed d.2 m).map (fun r =>
              ((⟨name, d.1, 0⟩ : UdpPub) :: r.1, r.2))

/-- Embedding of `UDPCollector.collect` for its single `/proc/net/snmp` file: same
header/data parsing as the IP collector but seeking lines starting with
"Udp", then the derivative-publishing loop. -/
def udpCollect (access : Bool) (lines : List String) (allowed : List String)
    (st : CounterState) (m : Rat) : Except String (List UdpPub × CounterState) :=
  match parseProcMetrics "Udp" access lines with
  | .error e => .error e
  | .ok metrics => udpPublishLoop metrics allowed st m

/-! ## KVMCollector (src/collectors/kvm/kvm.py) -/

/-- A plain `publish(filename, metric_value)` call of the KVM collector. -/
structure KvmPub where
  name : String
  value : Rat
  deriving DecidableEq, Repr

/-- Embedding of `KVMCollector.collect` once the debugfs directory exists: the directory
listing is given as (filename, first line) pairs.  `float(...)` failure is
an uncaught `ValueError` that aborts the loop; publishes made before it
stand.  Uses the 32-bit wraparound modulus 4294967295. -/
def kvmCollect (files : List (String × String)) (st : CounterState) :
    List KvmPub × CounterState × Option String :=
  match files with
  | [] => ([], st, none)
  | (filename, line) :: rest =>
      match pyFloat? line with
      | none => ([], st, some "ValueError: could not convert string to float")
      | some v =>
          let d := derivative st filename v 4294967295
          let r := kvmCollect rest d.2
          ((⟨filename, d.1⟩ : KvmPub) :: r.1, r.2.1, r.2.2)

/-! ## KSMCollector (src/collectors/ksm/ksm.py) -/

/-- One globbed entry under `ksm_path`: base name, `os.access(_, R_OK)`
result, and the first line of the file. -/
structure KsmFile where
  name : String
  readable : Bool
  line : String
  deriving Repr

/-- Python `str.rstrip()`: drop trailing whitespace. -/
def pyrstrip (s : String) : String :=
  ⟨(s.data.reverse.dropWhile (fun c => c.isWhitespace)).reverse⟩

/-- Embedding of `KSMCollector.collect`: unreadable entries are skipped; `float(...)`
`ValueError` is caught and the entry skipped; everything else is published
as a gauge named after the file's base name. -/
def ksmCollect (files : List KsmFile) : List (String × Rat) :=
  match files with
  | [] => []
  | f :: rest =>
      if ¬ f.readable then ksmCollect rest
      else
        match pyFloat? (pyrstrip f.line) with
        | none => ksmCollect rest
        | some v => (f.name, v) :: ksmCollect rest

/-! ## MemcachedCollector (src/collectors/memcached/memcached.py) -/

/-- The `MemcachedCollector.GAUGES` list. -/
def mcGAUGES : List String :=
  ["bytes", "connection_structures", "curr_connections", "curr_items",
   "threads", "reserved_fds", "limit_maxbytes", "hash_power_level",
   "hash_bytes", "hash_is_expanding", "uptime"]

/-- The `ignored` tuple of `MemcachedCollector.get_stats`. -/
def mcIgnored : List String :=
  ["libevent", "pointer_size", "time", "version", "repcached_version",
   "replication", "accepting_conns", "pid"]

/-- A memcached stat value: `int(...)`, `float(...)`, or the string kept by
the `limit_maxconn` enrichment. -/
inductive MVal where
  | int (z : Int)
  | float (q : Rat)
  | str (s : String)
  deriving DecidableEq, Repr

/-- One iteration of the parse loop of `MemcachedCollector.get_stats`
(lines 162–172), `acc` being the `(pid, stats)` state.  Indexing past the
end of `pieces` and `int`/`float` parse failures are uncaught. -/
def mcParseLine (acc : Option String × List (String × MVal)) (line : String) :
    Except String (Option String × List (String × MVal)) :=
  match (splitOnChar ' ' line.data).map (fun l => (⟨l⟩ : String)) with
  | [] => .ok acc
  | p0 :: rest =>
      if p0 ≠ "STAT" then .ok acc
      else
        match rest with
        | [] => .error "IndexError: list index out of range"
        | p1 :: rest2 =>
            if p1 ∈ mcIgnored then .ok acc
            else if p1 = "pid" then
              match rest2 with
              | [] => .error "IndexError: list index out of range"
              | p2 :: _ => .ok (some p2, acc.2)
            else
              match rest2 with
              | [] => .error "IndexError: list index out of range"
              | p2 :: _ =>
                  if '.' ∈ p2.data then
                    match pyFloat? p2 with
                    | none => .error "ValueError: could not convert string to float"
                    | some q => .ok (acc.1, dinsert acc.2 p1 (MVal.float q))
                  else
                    match pyInt? p2 with
                    | none => .error "ValueError: invalid literal for int"
                    | some z => .ok (acc.1, dinsert acc.2 p1 (MVal.int z))

/-- The full parse loop of `get_stats` over the raw response: returns the
captured `pid` (initially `None`) and the stats dict. -/
def mcParse (data : String) : Except String (Option String × List (String × MVal)) :=
  (pysplitlines data).foldlM mcParseLine (none, [])

/-- The regex search `-c NUL digits` on the cmdline contents: leftmost
occurrence of `-c` NUL followed by at least one digit; group 1 is the
maximal digit run. -/
def searchLimit (cs : List Char) : Option String :=
  match cs with
  | [] => none
  | _ :: rest =>
      if cs.take 3 = ['-', 'c', '\x00'] ∧ (cs.drop 3).takeWhile Char.isDigit ≠ [] then
        some ⟨(cs.drop 3).takeWhile Char.isDigit⟩
      else searchLimit rest

/-- Embedding of `MemcachedCollector.get_stats`: parse the raw response, then the
best-effort `limit_maxconn` enrichment from `/proc/<pid>/cmdline`
(`"/proc/%s/cmdline" % None` is the literal path `/proc/None/cmdline`).
`procRead` maps a path to the first line of the file, `none` meaning `open`
raised; any failure inside the `try` is swallowed. -/
def mcGetStats (data : String) (procRead : String → Option String) :
    Except String (List (String × MVal)) := do
  let (pid, stats) ← mcParse data
  let pidStr := match pid with | some p => p | none => "None"
  match procRead ("/proc/" ++ pidStr ++ "/cmdline") with
  | none => pure stats
  | some content =>
      match searchLimit content.data with
      | some ds => pure (dinsert stats "limit_maxconn" (MVal.str ds))
      | none => pure stats

/-- A `publish_gauge`/`publish_counter` call of the memcached collector. -/
structure McPub where
  name : String
  value : MVal
  kind : PKind
  deriving DecidableEq, Repr

/-- The publish loop of `MemcachedCollector.collect` (lines 213–227) for one
host: each desired stat present in `stats` is published under
`<aliasName>.<stat>`, gauge when in `GAUGES` else counter; a desired stat never
observed is logged as an error. -/
def mcPublishLoop (aliasName : String) (stats : List (String × MVal))
    (desired : List String) : List McPub × List String :=
  match desired with
  | [] => ([], [])
  | stat :: rest =>
      let (pubs, logs) := mcPublishLoop aliasName stats rest
      match dget? stats stat with
      | some v =>
          ((⟨aliasName ++ "." ++ stat, v,
             if stat ∈ mcGAUGES then PKind.gauge else PKind.counter⟩ : McPub) :: pubs,
           logs)
      | none => (pubs, ("No such key " ++ stat ++ " available") :: logs)

/-- Embedding of `MemcachedCollector.collect` for a single already-split host spec with
aliasName `aliasName`: `publishList` is the optional `publish` config (defaulting to
`stats.keys()`). -/
def mcCollectHost (aliasName : String) (data : String)
    (procRead : String → Option String) (publishList : Option (List String)) :
    Except String (List McPub × List String) := do
  let stats ← mcGetStats data procRead
  let desired := match publishList with | some l => l | none => stats.map Prod.fst
  pure (mcPublishLoop aliasName stats desired)

/-- A socket operation performed by `MemcachedCollector.get_raw_stats`, in
program order. -/
inductive SockOp where
  | create (inet : Bool)
  | connect
  | settimeout (seconds : Nat)
  | send (s : String)
  | recv
  | close
  deriving DecidableEq, Repr

/-- The receive loop of `get_raw_stats` (lines 121–127): `chunks` are the
successive returns of `sock.recv(4096)`; the loop stops on an empty chunk or
once the accumulated data ends with `END\r\n`. -/
def recvLoop (chunks : List String) (data : String) : List SockOp × String :=
  match chunks with
  | [] => ([SockOp.recv], data)
  | c :: rest =>
      if c = "" then ([SockOp.recv], data)
      else
        let data' := data ++ c
        if pyendswith data' "END\r\n" then ([SockOp.recv], data')
        else
          let r := recvLoop rest data'
          (SockOp.recv :: r.1, r.2)

/-- The socket-operation trace of `MemcachedCollector.get_raw_stats`
(lines 103–132) on the success path: create the socket, `connect`,
`settimeout(3)`, `send('stats\n')`, the receive loop, `close`. -/
def getRawStatsOps (inet : Bool) (chunks : List String) : List SockOp :=
  [SockOp.create inet, SockOp.connect, SockOp.settimeout 3,
   SockOp.send "stats\n"] ++ (recvLoop chunks "").1 ++ [SockOp.close]

/-! ## UptimeCollector (src/collectors/uptime/uptime.py) -/

/-- Modelled from the spec: `diamond.convertor.time.convert(value, 's',
unit)` lives in `diamond/convertor.py`, which is not part of the given
sources.  The spec gives the conversion from seconds to the default target
unit: `"12345.67 8900.12" → 12345.67/60` for unit "minutes"; seconds pass
through unchanged; an unsupported unit raises, modelled as `none`. -/
def timeConvert (v : Rat) (unit : String) : Option Rat :=
  if unit = "s" ∨ unit = "seconds" then some v
  else if unit = "m" ∨ unit = "minutes" then some (mkRat v.num (v.den * 60))
  else none

/-- Embedding of `UptimeCollector.read`: first whitespace token of the first line of
`/proc/uptime` parsed as a float, converted to the configured unit; every
exception is caught, logged, and turned into `None`. -/
def uptimeRead (content : String) (metricName : String) :
    Option Rat × List String :=
  match (pysplit content).head? with
  | none => (none, ["Unable to read uptime"])
  | some tok =>
      match pyFloat? tok with
      | none => (none, ["Unable to read uptime"])
      | some v =>
          match timeConvert v metricName with
          | none => (none, ["Unable to read uptime"])
          | some c => (some c, [])

/-- Embedding of `UptimeCollector.collect`: `pathExists` models
`os.path.exists('/proc/uptime')`; a missing path logs one error and
publishes nothing; otherwise `read()`'s value, when not `None`, is
published under the configured metric name. -/
def uptimeCollect (pathExists : Bool) (content : String) (metricName : String) :
    List (String × Rat) × List String :=
  if ¬ pathExists then ([], ["Input path /proc/uptime does not exist"])
  else
    match uptimeRead content metricName with
    | (some v, logs) => ([(metricName, v)], logs)
    | (none, logs) => ([], logs)

/-! ## MesosCGroupCollector (src/collectors/mesos_cgroup/mesos_cgroup.py) -/

/-- One `frameworks[].executors[]` element of the Mesos state document. -/
structure Executor where
  container : String
  source : String
  deriving Repr

/-- One `frameworks[]` element. -/
structure Framework where
  executors : List Executor
  deriving Repr

/-- The decoded `state.json` document; `flags` and `frameworks` are absent
keys when `none` (the empty dict returned on fetch failure has both
absent). -/
structure StateDoc where
  flags : Option (List (String × String))
  frameworks : Option (List Framework)
  deriving Repr

/-- The task dict (role, environment, task, id) built from an
executor's dot-split `source`. -/
structure TaskInfo where
  role : String
  environment : String
  task : String
  id : String
  deriving Repr

/-- A value of the `containers` dict built by `get_containers`: either the
`state['flags']` dict stored under the key `"flags"`, or a task entry. -/
inductive CEntry where
  | flagsE (fl : List (String × String))
  | taskE (t : TaskInfo)
  deriving Repr

/-- Embedding of `MesosCGroupCollector.get_mesos_state` (lines 178–189): the outcome of
the HTTP fetch plus JSON decode is passed in as `fetched`; on failure the
error is logged and the empty dict is returned. -/
def get_mesos_state (fetched : Option StateDoc) : StateDoc × List String :=
  match fetched with
  | some d => (d, [])
  | none => (⟨none, none⟩, ["Unable to read JSON response"])

/-- Embedding of `MesosCGroupCollector.get_containers` (lines 154–176):
`{'flags': state['flags']}` (a `KeyError` when the state has no `flags`
key), then one entry per executor, its `source` split on `.` and unpacked
into exactly four names (a `ValueError` otherwise). -/
def get_containers (doc : StateDoc) :
    Except String (List (String × CEntry)) := do
  let fl ←
    match doc.flags with
    | none => Except.error "KeyError: flags"
    | some fl => pure fl
  let init : List (String × CEntry) := [("flags", CEntry.flagsE fl)]
  match doc.frameworks with
  | none => pure init
  | some fws =>
      fws.foldlM (fun acc fw =>
        fw.executors.foldlM (fun acc ex =>
          match (splitOnChar '.' ex.source.data).map (fun l => (⟨l⟩ : String)) with
          | [role, environment, task, number] =>
              pure (dinsert acc ex.container
                (CEntry.taskE ⟨role, environment, task, number⟩))
          | _ => Except.error "ValueError: unpack source") acc) init

/-- Embedding of `MesosCGroupCollector.clean_up` (lines 191–194):
`text.replace('/', '.')`. -/
def clean_up (text : String) : String :=
  ⟨text.data.map (fun c => if c = '/' then '.' else c)⟩

/-- Model of `os.path.join` for two components as the collector uses it. -/
def ospJoin (a b : String) : String :=
  if pystartswith b "/" then b
  else if a = "" ∨ pyendswith a "/" then a ++ b
  else a ++ "/" ++ b

/-- The filesystem as `collect` sees it: directory listings, `os.path.isdir`
and file contents; `none` models a raised `OSError`/`IOError`. -/
structure MesosFS where
  listdir : String → Option (List String)
  isDir : String → Bool
  readFirstLine : String → Option String
  readLines : String → Option (List String)

/-- The `for kv_pair in data` loop over a `<subsystem>.stat` file
(lines 148–152): each line splits into exactly a key and a value (an
uncaught `ValueError` otherwise) and is published under the cleaned dotted
name.  Publishes made before a failure stand. -/
def statKvLoop (key_parts : List String) (ls : List String) :
    List (String × String) × Option String :=
  match ls with
  | [] => ([], none)
  | kv :: rest =>
      match pysplit kv with
      | [key, value] =>
          let r := statKvLoop key_parts rest
          ((clean_up (String.intercalate "." (key_parts ++ [key])), value) :: r.1,
           r.2)
      | _ => ([], some "ValueError: unpack kv_pair")

/-- Processing of one matched task directory (lines 129–152): for
`cpuacct`, read and publish `cpuacct.usage`, then read `<aspect>.stat` and
publish each key/value line. -/
def processTask (fs : MesosFS) (aspectPath aspect : String) (t : TaskInfo)
    (taskId : String) : List (String × String) × Option String :=
  let key_parts := [t.environment, t.role, t.task, t.id, aspect]
  let tpath := ospJoin aspectPath taskId
  let usage :=
    if aspect = "cpuacct" then
      match fs.readFirstLine (ospJoin tpath (aspect ++ ".usage")) with
      | none => ([], some "IOError: usage file")
      | some value =>
          ([(clean_up (String.intercalate "." (key_parts ++ ["usage"])), value)],
           none)
    else ([], none)
  match usage with
  | (upubs, some e) => (upubs, some e)
  | (upubs, none) =>
      match fs.readLines (ospJoin tpath (aspect ++ ".stat")) with
      | none => (upubs, some "IOError: stat file")
      | some ls =>
          let r := statKvLoop key_parts ls
          (upubs ++ r.1, r.2)

/-- The `for task_id in ...` loop of `collect` (lines 123–152): directory
entries absent from the `containers` dict are skipped; an entry mapped to
the flags dict hits `containers[task_id]['environment']`, a `KeyError`. -/
def processTasks (fs : MesosFS) (containers : List (String × CEntry))
    (aspectPath aspect : String) (taskIds : List String) :
    List (String × String) × Option String :=
  match taskIds with
  | [] => ([], none)
  | tid :: rest =>
      match dget? containers tid with
      | none => processTasks fs containers aspectPath aspect rest
      | some (CEntry.flagsE _) => ([], some "KeyError: environment")
      | some (CEntry.taskE t) =>
          match processTask fs aspectPath aspect t tid with
          | (pubs, some e) => (pubs, some e)
          | (pubs, none) =>
              let r := processTasks fs containers aspectPath aspect rest
              (pubs ++ r.1, r.2)

/-- One aspect iteration of `collect` (lines 119–124): list
`<hierarchy>/<aspect>/<cgroup_root>` (`OSError` when missing) and keep the
entries that are directories. -/
def processAspect (fs : MesosFS) (containers : List (String × CEntry))
    (sysfs cgroupRoot aspect : String) : List (String × String) × Option String :=
  let aspectPath := ospJoin (ospJoin sysfs aspect) cgroupRoot
  match fs.listdir aspectPath with
  | none => ([], some "OSError: listdir")
  | some entries =>
      processTasks fs containers aspectPath aspect
        (entries.filter (fun e => fs.isDir (ospJoin aspectPath e)))

/-- The `for aspect in ['cpuacct', 'cpu', 'memory']` loop of `collect`. -/
def aspectsLoop (fs : MesosFS) (containers : List (String × CEntry))
    (sysfs cgroupRoot : String) (aspects : List String) :
    List (String × String) × Option String :=
  match aspects with
  | [] => ([], none)
  | a :: rest =>
      match processAspect fs containers sysfs cgroupRoot a with
      | (pubs, some e) => (pubs, some e)
      | (pubs, none) =>
          let r := aspectsLoop fs containers sysfs cgroupRoot rest
          (pubs ++ r.1, r.2)

/-- Outcome of one `MesosCGroupCollector.collect` cycle: the publish calls
made, the errors logged, and the uncaught exception if one was raised. -/
structure MesosResult where
  pubs : List (String × String)
  logs : List String
  err : Option String

/-- Embedding of `MesosCGroupCollector.collect` (lines 93–152): build the containers
dict, take `containers['flags']['cgroups_hierarchy']` and
`...['cgroups_root']`, and walk the three cgroup subsystems. -/
def mesosCollect (fs : MesosFS) (fetched : Option StateDoc) : MesosResult :=
  let gs := get_mesos_state fetched
  match get_containers gs.1 with
  | .error e => ⟨[], gs.2, some e⟩
  | .ok containers =>
      match dget? containers "flags" with
      | none => ⟨[], gs.2, some "KeyError: flags"⟩
      | some (CEntry.taskE _) => ⟨[], gs.2, some "KeyError: cgroups_hierarchy"⟩
      | some (CEntry.flagsE fl) =>
          match dget? fl "cgroups_hierarchy" with
          | none => ⟨[], gs.2, some "KeyError: cgroups_hierarchy"⟩
          | some sysfs =>
              match dget? fl "cgroups_root" with
              | none => ⟨[], gs.2, some "KeyError: cgroups_root"⟩
              | some root =>
                  let r :=
                    aspectsLoop fs containers sysfs root ["cpuacct", "cpu", "memory"]
                  ⟨r.1, gs.2, r.2⟩

/-- A filesystem on which every access fails: used to evaluate the Mesos
collector on a cycle whose state fetch failed (the filesystem is never
reached on that path). -/
def emptyFS : MesosFS where
  listdir := fun _ => none
  isDir := fun _ => false
  readFirstLine := fun _ => none
  readLines := fun _ => none

/-- A one-task cgroup filesystem used to exercise a full Mesos collect
cycle on concrete data. -/
def demoFS : MesosFS where
  listdir := fun p =>
    if p = "/sys/fs/cgroup/cpuacct/mesos" then some ["c1"]
    else if p = "/sys/fs/cgroup/cpu/mesos" then some []
    else if p = "/sys/fs/cgroup/memory/mesos" then some []
    else none
  isDir := fun _ => true
  readFirstLine := fun p =>
    if p = "/sys/fs/cgroup/cpuacct/mesos/c1/cpuacct.usage" then some "123\n"
    else none
  readLines := fun p =>
    if p = "/sys/fs/cgroup/cpuacct/mesos/c1/cpuacct.stat" then
      some ["user 10", "system 5"]
    else none

/-- A Mesos state document with one executor whose `source` carries a `/`
inside its environment component. -/
def demoDoc : StateDoc where
  flags := some [("cgroups_hierarchy", "/sys/fs/cgroup"), ("cgroups_root", "mesos")]
  frameworks := some [⟨[⟨"c1", "www-data.prod/a.web.7"⟩]⟩]

/-- The publishes of a memcached collect outcome (`[]` if it raised). -/
def mcPubsOrEmpty (e : Except String (List McPub × List String)) : List McPub :=
  match e with
  | .ok r => r.1
  | .error _ => []

/-! ## Shared lemmas -/

theorem dget?_dinsert_ne {α : Type} (d : List (String × α)) (k k' : String)
    (v : α) (h : k ≠ k') : dget? (dinsert d k v) k' = dget? d k' := by
  induction d with
  | nil => simp [dinsert, dget?, h]
  | cons hd tl ih =>
      obtain ⟨k0, v0⟩ := hd
      by_cases hk : k0 = k
      · subst hk
        simp [dinsert, dget?, h]
      · simp [dinsert, dget?, hk, ih]

theorem notAllowed_cases (allowed : List String) (name : String)
    (hc : ¬ (allowed.length > 0 ∧ name ∉ allowed)) :
    allowed = [] ∨ name ∈ allowed := by
  rcases Nat.eq_zero_or_pos allowed.length with h0 | hpos
  · exact Or.inl (List.length_eq_zero.mp h0)
  · right
    by_contra hn
    exact hc ⟨hpos, hn⟩

theorem ipPublishLoop_allowed (allowed : List String) :
    ∀ (metrics : List (String × String)) (pubs : List IpPub),
      ipPublishLoop metrics allowed = .ok pubs →
      ∀ p ∈ pubs, allowed = [] ∨ p.name ∈ allowed := by
  intro metrics
  induction metrics with
  | nil =>
      intro pubs h
      simp only [ipPublishLoop, Except.ok.injEq] at h
      subst h
      simp
  | cons hd tl ih =>
      intro pubs h
      obtain ⟨name, raw⟩ := hd
      by_cases hc : allowed.length > 0 ∧ name ∉ allowed
      · rw [ipPublishLoop, if_pos hc] at h
        exact ih pubs h
      · rw [ipPublishLoop, if_neg hc] at h
        cases hp : pyInt? raw with
        | none => rw [hp] at h; cases h
        | some v =>
            rw [hp] at h
            cases hrec : ipPublishLoop tl allowed with
            | error e => rw [hrec] at h; cases h
            | ok rest =>
                rw [hrec] at h
                simp only [Except.map, Except.ok.injEq] at h
                subst h
                intro p hp'
                rcases List.mem_cons.mp hp' with hph | hpt
                · subst hph
                  exact notAllowed_cases allowed name hc
                · exact ih rest hrec p hpt

theorem udpPublishLoop_allowed (allowed : List String) (m : Rat) :
    ∀ (metrics : List (String × String)) (st : CounterState)
      (pubs : List UdpPub) (st' : CounterState),
      udpPublishLoop metrics allowed st m = .ok (pubs, st') →
      ∀ p ∈ pubs, allowed = [] ∨ p.name ∈ allowed := by
  intro metrics
  induction metrics with
  | nil =>
      intro st pubs st' h
      simp only [udpPublishLoop, Except.ok.injEq, Prod.mk.injEq] at h
      rw [← h.1]
      simp
  | cons hd tl ih =>
      intro st pubs st' h
      obtain ⟨name, raw⟩ := hd
      by_cases hc : allowed.length > 0 ∧ name ∉ allowed
      · rw [udpPublishLoop, if_pos hc] at h
        exact ih st pubs st' h
      · rw [udpPublishLoop, if_neg hc] at h
        cases hp : pyInt? raw with
        | none => rw [hp] at h; cases h
        | some v =>
            rw [hp] at h
            simp only [] at h
            cases hrec : udpPublishLoop tl allowed (derivative st name (v : Rat) m).2 m with
            | error e => rw [hrec] at h; cases h
            | ok r =>
                rw [hrec] at h
                simp only [Except.map, Except.ok.injEq, Prod.mk.injEq] at h
                intro p hp'
                rw [← h.1] at hp'
                rcases List.mem_cons.mp hp' with hph | hpt
                · subst hph
                  exact notAllowed_cases allowed name hc
                · exact ih (derivative st name (v : Rat) m).2 r.1 r.2
                    (by rw [hrec]) p hpt

theorem derivative_state (st : CounterState) (name : String) (new modulus : Rat) :
    (derivative st name new modulus).2 = dinsert st name new := by
  unfold derivative
  cases dget? st name <;> rfl

theorem derivative_value (st : CounterState) (name : String) (new modulus v0 : Rat)
    (h : dget? st name = some v0) :
    (derivative st name new modulus).1 =
      if new < v0 then (modulus - v0) + new else new - v0 := by
  unfold derivative
  rw [h]

theorem if_le_lt_comm (v0 v1 m : Rat) :
    (if v0 ≤ v1 then v1 - v0 else (m - v0) + v1) =
      (if v1 < v0 then (m - v0) + v1 else v1 - v0) := by
  rcases le_or_lt v0 v1 with hle | hlt
  · rw [if_pos hle, if_neg (not_lt.mpr hle)]
  · rw [if_neg (not_le.mpr hlt), if_pos hlt]

/-! ## Claim theorems -/

/-- C1: for every collection cycle of IPCollector and UDPCollector and
every configured allow-list L, a metric name is published in that cycle
only if L is empty or the name is a member of L. -/
theorem allowlist_filters_ip_udp :
    (∀ (access : Bool) (lines allowed : List String) (pubs : List IpPub),
       ipCollect access lines allowed = .ok pubs →
       ∀ p ∈ pubs, allowed = [] ∨ p.name ∈ allowed) ∧
    (∀ (access : Bool) (lines allowed : List String) (st : CounterState)
       (m : Rat) (pubs : List UdpPub) (st' : CounterState),
       udpCollect access lines allowed st m = .ok (pubs, st') →
       ∀ p ∈ pubs, allowed = [] ∨ p.name ∈ allowed) := by
  constructor
  · intro access lines allowed pubs h
    rw [ipCollect] at h
    cases hm : parseProcMetrics "Ip" access lines with
    | error e => rw [hm] at h; cases h
    | ok metrics =>
        rw [hm] at h
        exact ipPublishLoop_allowed allowed metrics pubs h
  · intro access lines allowed st m pubs st' h
    rw [udpCollect] at h
    cases hm : parseProcMetrics "Udp" access lines with
    | error e => rw [hm] at h; cases h
    | ok metrics =>
        rw [hm] at h
        exact udpPublishLoop_allowed allowed m metrics st pubs st' h

/-- Witness for C1 at a concrete cycle: a one-element allow-list lets only
that name through for both collectors. -/
theorem allowlist_filters_ip_udp_witness :
    (∀ p ∈ [(⟨"InReceives", 100, PKind.counter, 0⟩ : IpPub)],
       (["InReceives"] : List String) = [] ∨ p.name ∈ ["InReceives"]) ∧
    (∀ p ∈ [(⟨"InDatagrams", 0, 0⟩ : UdpPub)],
       (["InDatagrams"] : List String) = [] ∨ p.name ∈ ["InDatagrams"]) := by
  constructor
  · exact allowlist_filters_ip_udp.1 true
      ["Ip: Forwarding InReceives\n", "Ip: 1 100\n"] ["InReceives"] _ (by rfl)
  · exact allowlist_filters_ip_udp.2 true
      ["Udp: InDatagrams NoPorts\n", "Udp: 10 2\n"] ["InDatagrams"]
      [] 50 [⟨"InDatagrams", 0, 0⟩] [("InDatagrams", ((10 : Int) : Rat))] (by rfl)

/-- C5 (counterexample): on the spec's test input, whose data row lacks the
`Ip:` label that `/proc/net/snmp` data rows carry, header token `i` is paired
with data token `i`, so the two-token data row runs out of tokens and
`collect` raises an uncaught IndexError instead of publishing the claimed
two metrics. -/
theorem ipCollect_spec_input_raises :
    ipCollect true ["Ip: Forwarding InReceives\n", "1 100\n"] [] =
      .error "IndexError: list index out of range" := rfl

/-- C5 (amended): with the data row carrying its `Ip:` label as in
`/proc/net/snmp`, exactly two metrics are published: `Forwarding` with value
1 as a gauge and `InReceives` with value 100 as a counter. -/
theorem ipCollect_two_metrics :
    ipCollect true ["Ip: Forwarding InReceives\n", "Ip: 1 100\n"] [] =
      .ok [⟨"Forwarding", 1, PKind.gauge, 0⟩,
           ⟨"InReceives", 100, PKind.counter, 0⟩] := rfl

/-- C2: when the HTTP fetch or JSON decode of the Mesos state endpoint
fails, `get_mesos_state` logs the error and returns the empty dict, but
`collect` then raises an uncaught `KeyError` on `state['flags']` inside
`get_containers` instead of returning normally; no metric is published. -/
theorem mesos_state_failure_raises :
    mesosCollect emptyFS none =
      ⟨[], ["Unable to read JSON response"], some "KeyError: flags"⟩ := rfl

/-- C3: a `STAT pid <p>` line never sets `pid` — the `'pid'` entry in the
`ignored` tuple short-circuits the parse loop before the capture branch —
so even when `/proc/<p>/cmdline` exists and matches `-c <N>` (as
`searchLimit` on it shows), no `limit_maxconn` stat is produced; the
enrichment instead tries the literal path `/proc/None/cmdline`. -/
theorem memcached_pid_capture_dead :
    mcParse "STAT pid 123\r\nSTAT curr_items 5\r\nEND\r\n" =
      .ok (none, [("curr_items", MVal.int 5)]) ∧
    mcGetStats "STAT pid 123\r\nSTAT curr_items 5\r\nEND\r\n"
      (fun p => if p = "/proc/123/cmdline" then
         some "memcached\x00-c\x00100\x00" else none) =
      .ok [("curr_items", MVal.int 5)] ∧
    searchLimit ("memcached\x00-c\x00100\x00".data) = some "100" :=
  ⟨rfl, rfl, rfl⟩

/-- C6 (counterexample): on the spec's test response, `curr_items` is a
member of the fixed `GAUGES` set, so it is published as a gauge, not as the
claimed counter. -/
theorem memcached_curr_items_not_counter :
    (⟨"host1.curr_items", MVal.int 5, PKind.counter⟩ : McPub) ∉
      mcPubsOrEmpty (mcCollectHost "host1"
        "STAT curr_items 5\r\nSTAT uptime 10\r\nEND\r\n" (fun _ => none) none) ∧
    (⟨"host1.curr_items", MVal.int 5, PKind.gauge⟩ : McPub) ∈
      mcPubsOrEmpty (mcCollectHost "host1"
        "STAT curr_items 5\r\nSTAT uptime 10\r\nEND\r\n" (fun _ => none) none) := by
  decide

/-- C6 (amended): with no configured publish-list, the test response yields
`{alias}.curr_items` published with value 5 as a gauge (`curr_items` is in
the fixed gauge set) and `{alias}.uptime` published with value 10 as a
gauge. -/
theorem memcached_publish_classes (aliasName : String)
    (procRead : String → Option String)
    (h : procRead "/proc/None/cmdline" = none) :
    mcCollectHost aliasName "STAT curr_items 5\r\nSTAT uptime 10\r\nEND\r\n"
        procRead none =
      .ok ([⟨aliasName ++ "." ++ "curr_items", MVal.int 5, PKind.gauge⟩,
            ⟨aliasName ++ "." ++ "uptime", MVal.int 10, PKind.gauge⟩], []) := by
  have hm : mcGetStats "STAT curr_items 5\r\nSTAT uptime 10\r\nEND\r\n" procRead =
      .ok [("curr_items", MVal.int 5), ("uptime", MVal.int 10)] := by
    unfold mcGetStats
    rw [show mcParse "STAT curr_items 5\r\nSTAT uptime 10\r\nEND\r\n" =
          Except.ok ((none : Option String),
            [("curr_items", MVal.int 5), ("uptime", MVal.int 10)]) from rfl]
    show (match procRead ("/proc/" ++ "None" ++ "/cmdline") with
          | none => pure [("curr_items", MVal.int 5), ("uptime", MVal.int 10)]
          | some content =>
              match searchLimit content.data with
              | some ds => pure (dinsert [("curr_items", MVal.int 5),
                  ("uptime", MVal.int 10)] "limit_maxconn" (MVal.str ds))
              | none => pure [("curr_items", MVal.int 5), ("uptime", MVal.int 10)]
          : Except String (List (String × MVal))) = _
    rw [show ("/proc/" ++ "None" ++ "/cmdline" : String) = "/proc/None/cmdline" from rfl, h]
    rfl
  unfold mcCollectHost
  rw [hm]
  rfl

/-- Witness for C6 at a concrete alias and proc filesystem. -/
theorem memcached_publish_classes_witness :
    mcCollectHost "host2" "STAT curr_items 5\r\nSTAT uptime 10\r\nEND\r\n"
        (fun _ => none) none =
      .ok ([⟨"host2" ++ "." ++ "curr_items", MVal.int 5, PKind.gauge⟩,
            ⟨"host2" ++ "." ++ "uptime", MVal.int 10, PKind.gauge⟩], []) :=
  memcached_publish_classes "host2" (fun _ => none) rfl

/-- C7 (counterexample): in the socket-operation trace of `get_raw_stats`,
`connect` is performed at position 1, before `settimeout(3)` at position 2,
so the timeout is not applied before the connect. -/
theorem rawstats_timeout_after_connect :
    (getRawStatsOps true ["END\r\n"]).take 2 =
      [SockOp.create true, SockOp.connect] ∧
    (getRawStatsOps true ["END\r\n"]).get? 2 = some (SockOp.settimeout 3) := by
  decide

/-- C7 (amended): `get_raw_stats` applies the fixed 3-second timeout after
the connect but before the request send and before every read, so reads
cannot block indefinitely (the connect itself is not covered). -/
theorem rawstats_timeout_before_reads (inet : Bool) (chunks : List String) :
    (getRawStatsOps inet chunks).take 4 =
      [SockOp.create inet, SockOp.connect, SockOp.settimeout 3,
       SockOp.send "stats\n"] ∧
    ∀ k, (getRawStatsOps inet chunks).get? k = some SockOp.recv → 3 < k := by
  constructor
  · rfl
  · intro k hk
    by_contra hle
    push_neg at hle
    interval_cases k <;> simp [getRawStatsOps] at hk

/-- Witness for C7 at a concrete trace. -/
theorem rawstats_timeout_before_reads_witness :
    (getRawStatsOps false ["END\r\n"]).take 4 =
      [SockOp.create false, SockOp.connect, SockOp.settimeout 3,
       SockOp.send "stats\n"] ∧
    ∀ k, (getRawStatsOps false ["END\r\n"]).get? k = some SockOp.recv → 3 < k :=
  rawstats_timeout_before_reads false ["END\r\n"]

/-- C8: a missing `/proc/uptime` yields no publish call and exactly one
logged error; with content `12345.67 8900.12` and target unit minutes,
exactly one metric is published, with value 12345.67/60. -/
theorem uptime_missing_and_convert :
    (∀ content, uptimeCollect false content "minutes" =
       ([], ["Input path /proc/uptime does not exist"])) ∧
    uptimeCollect true "12345.67 8900.12\n" "minutes" =
      ([("minutes", (1234567 : Rat) / 100 / 60)], []) := by
  constructor
  · intro content; rfl
  · rw [show (1234567 : Rat) / 100 / 60 = mkRat 1234567 6000 by
         rw [Rat.mkRat_eq_divInt, Rat.divInt_eq_div]; norm_num]
    rfl

/-- Witness for C8's universally quantified missing-path branch. -/
theorem uptime_missing_and_convert_witness :
    uptimeCollect false "3.5 1.2\n" "minutes" =
      ([], ["Input path /proc/uptime does not exist"]) :=
  uptime_missing_and_convert.1 "3.5 1.2\n"

theorem clean_up_no_slash (s : String) : '/' ∉ (clean_up s).data := by
  intro hmem
  rcases List.mem_map.mp hmem with ⟨c, _, hc⟩
  by_cases h : c = '/'
  · rw [if_pos h] at hc
    exact absurd hc (by decide)
  · rw [if_neg h] at hc
    exact h hc

theorem statKvLoop_cleaned (kp : List String) :
    ∀ ls, ∀ p ∈ (statKvLoop kp ls).1, ∃ s, Prod.fst p = clean_up s := by
  intro ls
  induction ls with
  | nil => simp [statKvLoop]
  | cons kv rest ih =>
      intro p hp
      rw [statKvLoop] at hp
      cases hsp : pysplit kv with
      | nil => rw [hsp] at hp; simp at hp
      | cons a tl =>
          cases tl with
          | nil => rw [hsp] at hp; simp at hp
          | cons b tl2 =>
              cases tl2 with
              | nil =>
                  rw [hsp] at hp
                  simp only [List.mem_cons] at hp
                  rcases hp with he | ht
                  · exact ⟨_, congrArg Prod.fst he⟩
                  · exact ih p ht
              | cons c tl3 => rw [hsp] at hp; simp at hp

theorem processTask_cleaned (fs : MesosFS) (ap a : String) (t : TaskInfo)
    (tid : String) :
    ∀ p ∈ (processTask fs ap a t tid).1, ∃ s, Prod.fst p = clean_up s := by
  intro p hp
  rw [processTask] at hp
  by_cases ha : a = "cpuacct"
  · rw [if_pos ha] at hp
    cases hr : fs.readFirstLine (ospJoin (ospJoin ap tid) (a ++ ".usage")) with
    | none => rw [hr] at hp; simp at hp
    | some v =>
        rw [hr] at hp
        cases hl : fs.readLines (ospJoin (ospJoin ap tid) (a ++ ".stat")) with
        | none =>
            rw [hl] at hp
            simp only [List.mem_singleton] at hp
            exact ⟨_, congrArg Prod.fst hp⟩
        | some ls =>
            rw [hl] at hp
            simp only [List.cons_append, List.nil_append, List.mem_cons] at hp
            rcases hp with he | ht
            · exact ⟨_, congrArg Prod.fst he⟩
            · exact statKvLoop_cleaned _ ls p ht
  · rw [if_neg ha] at hp
    cases hl : fs.readLines (ospJoin (ospJoin ap tid) (a ++ ".stat")) with
    | none => rw [hl] at hp; simp at hp
    | some ls =>
        rw [hl] at hp
        simp only [List.nil_append] at hp
        exact statKvLoop_cleaned _ ls p hp

theorem processTasks_cleaned (fs : MesosFS) (containers : List (String × CEntry))
    (ap a : String) :
    ∀ tids, ∀ p ∈ (processTasks fs containers ap a tids).1,
      ∃ s, Prod.fst p = clean_up s := by
  intro tids
  induction tids with
  | nil => simp [processTasks]
  | cons tid rest ih =>
      intro p hp
      rw [processTasks] at hp
      cases hd : dget? containers tid with
      | none => rw [hd] at hp; exact ih p hp
      | some entry =>
          cases entry with
          | flagsE fl => rw [hd] at hp; simp at hp
          | taskE t =>
              rw [hd] at hp
              simp only [] at hp
              rcases hq : processTask fs ap a t tid with ⟨pubs, err⟩
              rw [hq] at hp
              cases err with
              | some e =>
                  simp only [] at hp
                  have := processTask_cleaned fs ap a t tid p
                  rw [hq] at this
                  exact this hp
              | none =>
                  simp only [List.mem_append] at hp
                  rcases hp with hl | hr
                  · have := processTask_cleaned fs ap a t tid p
                    rw [hq] at this
                    exact this hl
                  · exact ih p hr

theorem aspectsLoop_cleaned (fs : MesosFS) (containers : List (String × CEntry))
    (sysfs root : String) :
    ∀ aspects, ∀ p ∈ (aspectsLoop fs containers sysfs root aspects).1,
      ∃ s, Prod.fst p = clean_up s := by
  intro aspects
  induction aspects with
  | nil => simp [aspectsLoop]
  | cons a rest ih =>
      intro p hp
      rw [aspectsLoop] at hp
      rcases hq : processAspect fs containers sysfs root a with ⟨pubs, err⟩
      have hpa : ∀ x ∈ pubs, ∃ s, Prod.fst x = clean_up s := by
        intro x hx
        rw [processAspect] at hq
        cases hld : fs.listdir (ospJoin (ospJoin sysfs a) root) with
        | none =>
            rw [hld] at hq
            simp only [] at hq
            cases hq
            simp at hx
        | some entries =>
            rw [hld] at hq
            simp only [] at hq
            have := processTasks_cleaned fs containers
              (ospJoin (ospJoin sysfs a) root) a
              (entries.filter (fun e => fs.isDir (ospJoin (ospJoin (ospJoin sysfs a) root) e))) x
            rw [hq] at this
            exact this hx
      rw [hq] at hp
      cases err with
      | some e => simp only [] at hp; exact hpa p hp
      | none =>
          simp only [List.mem_append] at hp
          rcases hp with hl | hr
          · exact hpa p hl
          · exact ih p hr

/-- C9: every metric name the Mesos cgroup collector passes to `publish`
has been transformed by `clean_up`, which maps every `/` to `.`, so no
published metric name contains a slash. -/
theorem mesos_publish_names_cleaned :
    ∀ (fs : MesosFS) (fetched : Option StateDoc) (p : String × String),
      p ∈ (mesosCollect fs fetched).pubs →
      (∃ s, Prod.fst p = clean_up s) ∧ '/' ∉ (Prod.fst p).data := by
  have main : ∀ (fs : MesosFS) (fetched : Option StateDoc) (p : String × String),
      p ∈ (mesosCollect fs fetched).pubs → ∃ s, Prod.fst p = clean_up s := by
    intro fs fetched p hp
    rw [mesosCollect] at hp
    cases hgc : get_containers (get_mesos_state fetched).1 with
    | error e => rw [hgc] at hp; simp at hp
    | ok containers =>
        rw [hgc] at hp
        simp only [] at hp
        cases hfl : dget? containers "flags" with
        | none => rw [hfl] at hp; simp at hp
        | some entry =>
            cases entry with
            | taskE t => rw [hfl] at hp; simp at hp
            | flagsE fl =>
                rw [hfl] at hp
                simp only [] at hp
                cases hh : dget? fl "cgroups_hierarchy" with
                | none => rw [hh] at hp; simp at hp
                | some sysfs =>
                    rw [hh] at hp
                    simp only [] at hp
                    cases hr : dget? fl "cgroups_root" with
                    | none => rw [hr] at hp; simp at hp
                    | some root =>
                        rw [hr] at hp
                        exact aspectsLoop_cleaned fs containers sysfs root
                          ["cpuacct", "cpu", "memory"] p hp
  intro fs fetched p hp
  rcases main fs fetched p hp with ⟨s, hs⟩
  refine ⟨⟨s, hs⟩, ?_⟩
  rw [hs]
  exact clean_up_no_slash s

/-- Witness for C9: a concrete cycle that publishes a name whose source
carried a slash, cleaned to a dot. -/
theorem mesos_publish_names_cleaned_witness :
    (∃ s, ("prod.a.www-data.web.7.cpuacct.usage" : String) = clean_up s) ∧
    '/' ∉ ("prod.a.www-data.web.7.cpuacct.usage" : String).data :=
  mesos_publish_names_cleaned demoFS (some demoDoc)
    ("prod.a.www-data.web.7.cpuacct.usage", "123\n") (by decide)

/-- C10: a non-numeric first line in any KVM debugfs file aborts the whole
KVM cycle with an uncaught ValueError — files after it in the listing are
not published (publishes made before it stand) — while the KSM collector
catches the ValueError and continues with its sibling files as if the bad
file were not there. -/
theorem kvm_bad_value_aborts_ksm_skips :
    (∀ (pre : List (String × String)) (post : List (String × String))
       (fn line : String) (st : CounterState),
       pyFloat? line = none →
       (∀ q ∈ pre, (pyFloat? q.2).isSome) →
       kvmCollect (pre ++ (fn, line) :: post) st =
         ((kvmCollect pre st).1, (kvmCollect pre st).2.1,
          some "ValueError: could not convert string to float")) ∧
    (∀ (pre post : List KsmFile) (fname line : String),
       pyFloat? (pyrstrip line) = none →
       ksmCollect (pre ++ (⟨fname, true, line⟩ : KsmFile) :: post) =
         ksmCollect (pre ++ post)) := by
  constructor
  · intro pre
    induction pre with
    | nil =>
        intro post fn line st hbad hall
        simp only [List.nil_append]
        simp only [kvmCollect, hbad]
    | cons g rest ih =>
        intro post fn line st hbad hall
        obtain ⟨gn, gl⟩ := g
        obtain ⟨q, hq⟩ := Option.isSome_iff_exists.mp
          (hall (gn, gl) (List.mem_cons_self _ rest))
        have hrest : ∀ x ∈ rest, (pyFloat? x.2).isSome :=
          fun x hx => hall x (List.mem_cons_of_mem _ hx)
        simp only [List.cons_append, kvmCollect, hq, List.append_eq]
        rw [ih post fn line (derivative st gn q 4294967295).2 hbad hrest]
  · intro pre
    induction pre with
    | nil =>
        intro post fname line hbad
        simp only [List.nil_append]
        simp only [ksmCollect, hbad]
        simp
    | cons f rest ih =>
        intro post fname line hbad
        simp only [List.cons_append, ksmCollect, List.append_eq]
        rw [ih post fname line hbad]

/-- Witness for C10 at a concrete directory listing holding a good file, a
bad file, and a later sibling. -/
theorem kvm_bad_value_aborts_ksm_skips_witness :
    kvmCollect [("a", "5\n"), ("bad", "foo\n"), ("c", "7\n")] [] =
      ((kvmCollect [("a", "5\n")] []).1, (kvmCollect [("a", "5\n")] []).2.1,
       some "ValueError: could not convert string to float") ∧
    ksmCollect [⟨"a", true, "5\n"⟩, ⟨"bad", true, "foo\n"⟩, ⟨"c", true, "7\n"⟩] =
      ksmCollect [⟨"a", true, "5\n"⟩, ⟨"c", true, "7\n"⟩] :=
  ⟨kvm_bad_value_aborts_ksm_skips.1 [("a", "5\n")] [("c", "7\n")] "bad" "foo\n" []
     (by decide) (by decide),
   kvm_bad_value_aborts_ksm_skips.2 [⟨"a", true, "5\n"⟩] [⟨"c", true, "7\n"⟩]
     "bad" "foo\n" (by decide)⟩

/-- C4: for both derivative-publishing collectors — UDP (host default
modulus `m`) and KVM (modulus 4294967295) — a metric whose previous raw
observation was `v0` and whose current raw value is `v1` is published with
delta `v1 - v0` when `v1 ≥ v0`, and `(modulus - v0) + v1` when `v1 < v0`. -/
theorem derivative_delta_formula :
    (∀ (metrics : List (String × String)) (allowed : List String)
       (st : CounterState) (m : Rat) (pubs : List UdpPub) (st' : CounterState)
       (name raw : String) (v1 : Int) (v0 : Rat),
       udpPublishLoop metrics allowed st m = .ok (pubs, st') →
       (metrics.map Prod.fst).Nodup →
       (name, raw) ∈ metrics →
       pyInt? raw = some v1 →
       dget? st name = some v0 →
       (allowed = [] ∨ name ∈ allowed) →
       (⟨name, if v0 ≤ (v1 : Rat) then (v1 : Rat) - v0
               else (m - v0) + (v1 : Rat), 0⟩ : UdpPub) ∈ pubs) ∧
    (∀ (files : List (String × String)) (st : CounterState)
       (name line : String) (v1 v0 : Rat),
       (files.map Prod.fst).Nodup →
       (name, line) ∈ files →
       pyFloat? line = some v1 →
       dget? st name = some v0 →
       (∀ q ∈ files, (pyFloat? q.2).isSome) →
       (⟨name, if v0 ≤ v1 then v1 - v0
               else ((4294967295 : Rat) - v0) + v1⟩ : KvmPub) ∈
         (kvmCollect files st).1) := by
  constructor
  · intro metrics
    induction metrics with
    | nil =>
        intro allowed st m pubs st' name raw v1 v0 h hnd hmem hv1 hv0 hallow
        simp at hmem
    | cons hd tl ih =>
        intro allowed st m pubs st' name raw v1 v0 h hnd hmem hv1 hv0 hallow
        obtain ⟨hname, hraw⟩ := hd
        rcases List.mem_cons.mp hmem with heq | hmem'
        · injection heq with h1 h2
          subst h1
          subst h2
          have hcf : ¬ (allowed.length > 0 ∧ name ∉ allowed) := by
            rcases hallow with h0 | hin
            · subst h0; simp
            · intro hcon; exact hcon.2 hin
          rw [udpPublishLoop, if_neg hcf, hv1] at h
          simp only [] at h
          cases hrec : udpPublishLoop tl allowed
              (derivative st name ((v1 : Int) : Rat) m).2 m with
          | error e => rw [hrec] at h; cases h
          | ok r =>
              rw [hrec] at h
              simp only [Except.map, Except.ok.injEq, Prod.mk.injEq] at h
              rw [← h.1]
              refine List.mem_cons.mpr (Or.inl ?_)
              rw [if_le_lt_comm, ← derivative_value st name ((v1 : Int) : Rat) m v0 hv0]
        · have hne : hname ≠ name := by
            intro hcontra
            subst hcontra
            have : hname ∈ tl.map Prod.fst :=
              List.mem_map_of_mem Prod.fst hmem'
            exact (List.nodup_cons.mp hnd).1 this
          have hnd' : (tl.map Prod.fst).Nodup := by
            simp only [List.map_cons, List.nodup_cons] at hnd
            exact hnd.2
          by_cases hcf : allowed.length > 0 ∧ hname ∉ allowed
          · rw [udpPublishLoop, if_pos hcf] at h
            exact ih allowed st m pubs st' name raw v1 v0 h hnd' hmem' hv1 hv0 hallow
          · rw [udpPublishLoop, if_neg hcf] at h
            cases hvp : pyInt? hraw with
            | none => rw [hvp] at h; cases h
            | some w =>
                rw [hvp] at h
                simp only [] at h
                cases hrec : udpPublishLoop tl allowed
                    (derivative st hname ((w : Int) : Rat) m).2 m with
                | error e => rw [hrec] at h; cases h
                | ok r =>
                    rw [hrec] at h
                    simp only [Except.map, Except.ok.injEq, Prod.mk.injEq] at h
                    rw [← h.1]
                    refine List.mem_cons.mpr (Or.inr ?_)
                    have hv0' : dget? (derivative st hname ((w : Int) : Rat) m).2 name =
                        some v0 := by
                      rw [derivative_state, dget?_dinsert_ne _ _ _ _ hne, hv0]
                    exact ih allowed (derivative st hname ((w : Int) : Rat) m).2 m
                      r.1 r.2 name raw v1 v0 hrec hnd' hmem' hv1 hv0' hallow
  · intro files
    induction files with
    | nil =>
        intro st name line v1 v0 hnd hmem hv1 hv0 hall
        simp at hmem
    | cons g rest ih =>
        intro st name line v1 v0 hnd hmem hv1 hv0 hall
        obtain ⟨gn, gl⟩ := g
        rcases List.mem_cons.mp hmem with heq | hmem'
        · injection heq with h1 h2
          subst h1
          subst h2
          rw [kvmCollect, hv1]
          simp only []
          refine List.mem_cons.mpr (Or.inl ?_)
          rw [if_le_lt_comm, ← derivative_value st name v1 4294967295 v0 hv0]
        · have hne : gn ≠ name := by
            intro hcontra
            subst hcontra
            have : gn ∈ rest.map Prod.fst :=
              List.mem_map_of_mem Prod.fst hmem'
            exact (List.nodup_cons.mp hnd).1 this
          have hnd' : (rest.map Prod.fst).Nodup := by
            simp only [List.map_cons, List.nodup_cons] at hnd
            exact hnd.2
          obtain ⟨q, hq⟩ := Option.isSome_iff_exists.mp
            (hall (gn, gl) (List.mem_cons_self _ rest))
          have hrest : ∀ x ∈ rest, (pyFloat? x.2).isSome :=
            fun x hx => hall x (List.mem_cons_of_mem _ hx)
          rw [kvmCollect, hq]
          simp only []
          refine List.mem_cons.mpr (Or.inr ?_)
          have hv0' : dget? (derivative st gn q 4294967295).2 name = some v0 := by
            rw [derivative_state, dget?_dinsert_ne _ _ _ _ hne, hv0]
          exact ih (derivative st gn q 4294967295).2 name line v1 v0
            hnd' hmem' hv1 hv0' hrest

/-- Witness for C4: a normal step (5 after 3, modulus 100) for UDP and a
wraparound step (2 after 10) for KVM. -/
theorem derivative_delta_formula_witness :
    (⟨"InDatagrams", if (3 : Rat) ≤ ((5 : Int) : Rat) then ((5 : Int) : Rat) - 3
                     else ((100 : Rat) - 3) + ((5 : Int) : Rat), 0⟩ : UdpPub) ∈
      [(⟨"InDatagrams", (derivative [("InDatagrams", 3)] "InDatagrams"
          ((5 : Int) : Rat) 100).1, 0⟩ : UdpPub)] ∧
    (⟨"exits", if (10 : Rat) ≤ (2 : Rat) then (2 : Rat) - 10
               else ((4294967295 : Rat) - 10) + 2⟩ : KvmPub) ∈
      (kvmCollect [("exits", "2\n")] [("exits", 10)]).1 := by
  constructor
  · exact derivative_delta_formula.1 [("InDatagrams", "5")] []
      [("InDatagrams", 3)] 100
      [⟨"InDatagrams", (derivative [("InDatagrams", 3)] "InDatagrams"
          ((5 : Int) : Rat) 100).1, 0⟩]
      (derivative [("InDatagrams", 3)] "InDatagrams" ((5 : Int) : Rat) 100).2
      "InDatagrams" "5" 5 3 rfl (by decide) (by decide) (by decide) (by decide)
      (Or.inl rfl)
  · exact derivative_delta_formula.2 [("exits", "2\n")] [("exits", 10)]
      "exits" "2\n" 2 10 (by decide) (by decide) (by decide) (by decide)
      (by decide)

end Diamond
